import Mathlib

/-!
Shallow embedding of the engagement, slug, and hierarchy logic of the
Modern_CMS_Python repository (app/services/post.py, app/services/comment.py,
app/services/category.py, app/api/v1/categories.py, app/models/*), together
with theorems settling the specification claims about them.

Python floats are embedded as exact rationals (`ℚ`); machine ints of the
store are embedded as `Int`/`Nat` (no column in play is near any width
bound, and Python ints are unbounded anyway).
-/

/-! ### Post rating (PostService.rate_post, app/services/post.py 232-269) -/

/-- A stored `post_ratings` row (`PostRating` in app/models/post.py):
nullable `user_id`, an `ip_address` string, and the integer rating value. -/
structure RatingRow where
  user_id : Option Nat
  ip_address : String
  rating : Int
deriving Repr, DecidableEq

/-- The rating-relevant columns of one `posts` row together with the
`post_ratings` rows of that post: `rating` (float, embedded as `ℚ`),
`votes_count`, and the rating rows themselves. -/
structure PostState where
  rating : ℚ
  votes_count : Nat
  ratings : List RatingRow
deriving Repr, DecidableEq

/-- The existing-row lookup of `rate_post`:
`or_(PostRating.user_id == user_id if user_id else False, PostRating.ip_address == ip)`.
A Python int is truthy iff nonzero, so the `user_id` disjunct participates
exactly when the caller's `user_id` is a nonzero int; SQL `NULL == u` is not
true, so a row with NULL `user_id` never matches on the first disjunct. -/
def ratingMatches (user_id : Option Nat) (ip : String) (row : RatingRow) : Bool :=
  (match user_id with
   | some u => if u = 0 then false else row.user_id == some u
   | none => false) || row.ip_address == ip

/-- ORM mutation `existing_rating.rating = rating`: the first row satisfying
the lookup predicate has its value replaced. -/
def updateFirstRating (p : RatingRow → Bool) (r : Int) : List RatingRow → List RatingRow
  | [] => []
  | row :: rest =>
      if p row then { row with rating := r } :: rest
      else row :: updateFirstRating p r rest

/-- `PostService.rate_post` (app/services/post.py 232-269).  If a row matches
the presented identity, the row value is replaced and
`post.rating = (post.rating * votes_count - old_rating + rating) / votes_count`
with `votes_count` unchanged; otherwise a new row is appended,
`votes_count` is incremented and
`post.rating = (post.rating * (votes_count - 1) + rating) / votes_count`.
This function is the write path: it reads the lookup as the first matching
row, which is the unique match whenever at most one row matches.  The
source's `scalar_one_or_none()` additionally raises `MultipleResultsFound`
when several rows match; that error path is carried by `rate_post_checked`
below, which gates this function on the match count and agrees with the
program on every state.  Division is `ℚ` division; the `x / 0` case only
arises from states where a rating row exists while `votes_count = 0`, where
Python would raise. -/
def rate_post (s : PostState) (rating : Int) (user_id : Option Nat) (ip : String) :
    PostState :=
  match s.ratings.find? (ratingMatches user_id ip) with
  | some existing =>
      { s with
        rating :=
          (s.rating * (s.votes_count : ℚ) - (existing.rating : ℚ) + (rating : ℚ)) /
            (s.votes_count : ℚ),
        ratings := updateFirstRating (ratingMatches user_id ip) rating s.ratings }
  | none =>
      { s with
        votes_count := s.votes_count + 1,
        rating :=
          (s.rating * (s.votes_count : ℚ) + (rating : ℚ)) / ((s.votes_count : ℚ) + 1),
        ratings := s.ratings ++ [⟨user_id, ip, rating⟩] }

/-- One call of the `/posts/{id}/rate` endpoint: the caller's optional user id,
the client IP, and the submitted rating. -/
structure RateCall where
  user_id : Option Nat
  ip : String
  rating : Int
deriving Repr, DecidableEq

/-- Run a sequence of `rate_post` calls on one post. -/
def rateAll (s : PostState) : List RateCall → PostState
  | [] => s
  | c :: cs => rateAll (rate_post s c.rating c.user_id c.ip) cs

/-- A fresh post: `rating = 0`, `votes_count = 0`, no rating rows. -/
def initPost : PostState := ⟨0, 0, []⟩

/-- The spec's voter identity: the authenticated user id when present,
else the request IP. -/
inductive VoterIdentity where
  | auth (uid : Nat)
  | anon (ip : String)
deriving Repr, DecidableEq

/-- Voter identity presented by a call (`user.id if user else None`). -/
def RateCall.identity (c : RateCall) : VoterIdentity :=
  match c.user_id with
  | some u => .auth u
  | none => .anon c.ip

/-! ### Rating lemmas -/

theorem find?_append_singleton (p : RatingRow → Bool) (l : List RatingRow)
    (x : RatingRow) (h : l.find? p = none) (hx : p x = true) :
    (l ++ [x]).find? p = some x := by
  induction l with
  | nil => simp [List.find?_cons, hx]
  | cons a rest ih =>
    rw [List.find?_eq_none] at h
    have ha : ¬ p a = true := h a (by simp)
    have hrest : rest.find? p = none :=
      List.find?_eq_none.mpr fun y hy => h y (by simp [hy])
    simp only [List.cons_append]
    rw [List.find?_cons_of_neg _ ha, ih hrest]

/-- Branch equation: no matching row exists, a new one is inserted. -/
theorem rate_post_find_none {s : PostState} {uid : Option Nat} {ip : String}
    (r : Int) (h : s.ratings.find? (ratingMatches uid ip) = none) :
    rate_post s r uid ip =
      { s with
        votes_count := s.votes_count + 1,
        rating :=
          (s.rating * (s.votes_count : ℚ) + (r : ℚ)) / ((s.votes_count : ℚ) + 1),
        ratings := s.ratings ++ [⟨uid, ip, r⟩] } := by
  simp [rate_post, h]

/-- C1 counterexample: two calls with distinct voter identities (authenticated
users 1 and 2) that share an IP address.  The second call matches the first
call's rating row through the IP disjunct of the lookup, so it takes the
update branch: after the sequence `votes_count = 1`, not the claimed `N = 2`,
and the stored rating is `5`, not the mean `3`. -/
theorem rate_post_distinct_identities_counterexample :
    (RateCall.mk (some 1) "10.0.0.1" 1).identity ≠
        (RateCall.mk (some 2) "10.0.0.1" 5).identity ∧
    (rateAll initPost
        [⟨some 1, "10.0.0.1", 1⟩, ⟨some 2, "10.0.0.1", 5⟩]).votes_count = 1 ∧
    (rateAll initPost
        [⟨some 1, "10.0.0.1", 1⟩, ⟨some 2, "10.0.0.1", 5⟩]).rating = 5 ∧
    (1 : Nat) ≠ 2 := by
  refine ⟨by decide, by decide, ?_, by decide⟩
  norm_num [rateAll, rate_post, ratingMatches, updateFirstRating, List.find?, initPost]

/-- A sequence of calls in which no call can ever match a rating row produced
by another call of the sequence: all IPs are pairwise distinct, and no two
calls present the same (authenticated) user id. -/
def FreshCalls (calls : List RateCall) : Prop :=
  calls.Pairwise fun a b =>
    a.ip ≠ b.ip ∧ (a.user_id = none ∨ a.user_id ≠ b.user_id)

instance (calls : List RateCall) : Decidable (FreshCalls calls) := by
  unfold FreshCalls
  infer_instance

/-- A fresh later call never matches the row inserted by an earlier fresh call. -/
theorem ratingMatches_of_fresh (a b : RateCall)
    (hip : a.ip ≠ b.ip) (huid : a.user_id = none ∨ a.user_id ≠ b.user_id) :
    ratingMatches b.user_id b.ip ⟨a.user_id, a.ip, a.rating⟩ = false := by
  rcases hb : b.user_id with _ | u
  · simp [ratingMatches, hip]
  · by_cases hu : u = 0
    · simp [ratingMatches, hu, hip]
    · simp only [ratingMatches, hu, if_false, Bool.or_eq_false_iff]
      refine ⟨?_, by simp [hip]⟩
      rcases huid with h | h
      · simp [h]
      · rw [hb] at h
        simp only [beq_eq_false_iff_ne, ne_eq]
        exact h

/-- Invariant run: if no call of the sequence matches any pre-existing row and
the sequence is fresh, every call takes the insert branch, so the count grows
by the number of calls and `rating * count` tracks the running sum. -/
theorem rateAll_fresh_invariant (calls : List RateCall) :
    ∀ s : PostState,
      (∀ c ∈ calls, ∀ row ∈ s.ratings,
        ratingMatches c.user_id c.ip row = false) →
      FreshCalls calls →
      (rateAll s calls).votes_count = s.votes_count + calls.length ∧
      (rateAll s calls).rating *
          ((s.votes_count : ℚ) + (calls.length : ℚ)) =
        s.rating * (s.votes_count : ℚ) +
          (calls.map fun c => (c.rating : ℚ)).sum := by
  induction calls with
  | nil =>
    intro s _ _
    refine ⟨by simp [rateAll], ?_⟩
    simp only [rateAll, List.length_nil, Nat.cast_zero, add_zero, List.map_nil,
      List.sum_nil]
  | cons c cs ih =>
    intro s hnomatch hfresh
    have hfind : s.ratings.find? (ratingMatches c.user_id c.ip) = none :=
      List.find?_eq_none.mpr fun row hrow => by
        simp [hnomatch c (by simp) row hrow]
    have h1 := rate_post_find_none c.rating hfind
    simp only [FreshCalls, List.pairwise_cons] at hfresh
    have hnomatch' : ∀ c' ∈ cs, ∀ row ∈ (rate_post s c.rating c.user_id c.ip).ratings,
        ratingMatches c'.user_id c'.ip row = false := by
      intro c' hc' row hrow
      rw [h1] at hrow
      simp only [List.mem_append, List.mem_singleton] at hrow
      rcases hrow with hrow | hrow
      · exact hnomatch c' (by simp [hc']) row hrow
      · subst hrow
        exact ratingMatches_of_fresh c c' (hfresh.1 c' hc').1 (hfresh.1 c' hc').2
    have hrec := ih (rate_post s c.rating c.user_id c.ip) hnomatch' hfresh.2
    have hvc : (rate_post s c.rating c.user_id c.ip).votes_count =
        s.votes_count + 1 := by rw [h1]
    have hnz : ((s.votes_count : ℚ) + 1) ≠ 0 := by positivity
    have hr : (rate_post s c.rating c.user_id c.ip).rating *
        ((s.votes_count : ℚ) + 1) = s.rating * (s.votes_count : ℚ) + (c.rating : ℚ) := by
      rw [h1]
      simp only
      field_simp
    constructor
    · rw [rateAll, hrec.1, hvc]
      simp only [List.length_cons]
      omega
    · rw [rateAll]
      have := hrec.2
      rw [hvc] at this
      simp only [List.length_cons, List.map_cons, List.sum_cons]
      push_cast at this ⊢
      calc (rateAll (rate_post s c.rating c.user_id c.ip) cs).rating *
            ((s.votes_count : ℚ) + ((cs.length : ℚ) + 1))
          = (rateAll (rate_post s c.rating c.user_id c.ip) cs).rating *
            (((s.votes_count : ℚ) + 1) + (cs.length : ℚ)) := by ring
        _ = (rate_post s c.rating c.user_id c.ip).rating *
            ((s.votes_count : ℚ) + 1) + (cs.map fun x => (x.rating : ℚ)).sum := this
        _ = s.rating * (s.votes_count : ℚ) +
            ((c.rating : ℚ) + (cs.map fun x => (x.rating : ℚ)).sum) := by
          rw [hr]; ring

/-- C1 amended: for a sequence of `rate_post` calls on a fresh post whose
ratings lie in `[1,5]`, whose IPs are pairwise distinct, and in which no two
calls present the same authenticated user id (so that no call can match
another call's rating row), the final `votes_count` equals the number of
calls and the final rating equals the arithmetic mean of the submitted
ratings (exact over `ℚ`). -/
theorem rate_post_fresh_calls_mean (calls : List RateCall)
    (hfresh : FreshCalls calls)
    (hrange : ∀ c ∈ calls, 1 ≤ c.rating ∧ c.rating ≤ 5) :
    (rateAll initPost calls).votes_count = calls.length ∧
    (rateAll initPost calls).rating =
      (calls.map fun c => (c.rating : ℚ)).sum / (calls.length : ℚ) := by
  have h := rateAll_fresh_invariant calls initPost (by simp [initPost]) hfresh
  rw [initPost] at h
  simp only [Nat.zero_add, Nat.cast_zero, zero_add, zero_mul] at h
  refine ⟨h.1, ?_⟩
  rcases Nat.eq_zero_or_pos calls.length with hlen | hlen
  · rw [List.length_eq_zero] at hlen
    subst hlen
    simp [rateAll, initPost]
  · have hnz : ((calls.length : ℚ)) ≠ 0 := by
      exact_mod_cast Nat.pos_iff_ne_zero.mp hlen
    rw [eq_div_iff hnz]
    simpa using h.2

/-- Closed witness: two fresh calls (distinct IPs, distinct user ids) with
ratings 2 and 4 end with `votes_count = 2` and average `3`. -/
theorem rate_post_fresh_calls_mean_witness :
    (rateAll initPost [⟨some 1, "10.0.0.1", 2⟩, ⟨none, "10.0.0.2", 4⟩]).votes_count = 2 ∧
    (rateAll initPost [⟨some 1, "10.0.0.1", 2⟩, ⟨none, "10.0.0.2", 4⟩]).rating =
      (([⟨some 1, "10.0.0.1", 2⟩, ⟨none, "10.0.0.2", 4⟩] : List RateCall).map
        fun c => (c.rating : ℚ)).sum / ((2 : ℚ)) := by
  have h := rate_post_fresh_calls_mean
    [⟨some 1, "10.0.0.1", 2⟩, ⟨none, "10.0.0.2", 4⟩] (by decide) (by decide)
  simpa using h

/-! ### Comment votes and moderation (CommentService, app/services/comment.py) -/

/-- A `comment_votes` row (`CommentVote` in app/models/comment.py):
nullable `user_id`, `ip_address`, and `vote` (`1` like, `-1` dislike). -/
structure VoteRow where
  user_id : Option Nat
  ip_address : String
  vote : Int
deriving Repr, DecidableEq

/-- One `comments` row with its vote rows (columns the claims touch).
`is_approved` defaults to `True` and `is_pinned` to `False` in
app/models/comment.py; `likes_count`/`dislikes_count` default to 0. -/
structure CommentState where
  post_id : Nat
  parent_id : Option Nat
  author_id : Option Nat
  content : String
  guest_name : Option String
  guest_email : Option String
  is_approved : Bool
  is_pinned : Bool
  likes_count : Int
  dislikes_count : Int
  votes : List VoteRow
deriving Repr, DecidableEq

/-- The existing-vote lookup of `CommentService.vote`, same shape as the
rating lookup: `or_(CommentVote.user_id == user_id if user_id else False,
CommentVote.ip_address == ip)`. -/
def voteMatches (user_id : Option Nat) (ip : String) (row : VoteRow) : Bool :=
  (match user_id with
   | some u => if u = 0 then false else row.user_id == some u
   | none => false) || row.ip_address == ip

/-- ORM mutation `existing_vote.vote = vote` on the first matching row. -/
def updateFirstVote (p : VoteRow → Bool) (v : Int) : List VoteRow → List VoteRow
  | [] => []
  | row :: rest =>
      if p row then { row with vote := v } :: rest
      else row :: updateFirstVote p v rest

namespace CommentService

/-- `CommentService.vote` (app/services/comment.py 154-211).
With an existing row: `vote = 0` deletes the row and decrements the bucket of
the old value (`likes_count` if it was `1`, else `dislikes_count`); a nonzero
vote overwrites the row value and, when the old value differs, moves one
count from the old bucket to the new one.  With no existing row: a nonzero
vote inserts a row and increments the matching bucket; `vote = 0` is a no-op. -/
def vote (c : CommentState) (v : Int) (user_id : Option Nat) (ip : String) :
    CommentState :=
  match c.votes.find? (voteMatches user_id ip) with
  | some existing =>
      if v = 0 then
        { c with
          votes := c.votes.eraseP (voteMatches user_id ip),
          likes_count :=
            if existing.vote = 1 then c.likes_count - 1 else c.likes_count,
          dislikes_count :=
            if existing.vote = 1 then c.dislikes_count else c.dislikes_count - 1 }
      else
        { c with
          votes := updateFirstVote (voteMatches user_id ip) v c.votes,
          likes_count :=
            if existing.vote ≠ v then
              (if v = 1 then c.likes_count + 1 else c.likes_count - 1)
            else c.likes_count,
          dislikes_count :=
            if existing.vote ≠ v then
              (if v = 1 then c.dislikes_count - 1 else c.dislikes_count + 1)
            else c.dislikes_count }
  | none =>
      if v ≠ 0 then
        { c with
          votes := c.votes ++ [⟨user_id, ip, v⟩],
          likes_count := if v = 1 then c.likes_count + 1 else c.likes_count,
          dislikes_count := if v = 1 then c.dislikes_count else c.dislikes_count + 1 }
      else c

/-- Input schema `CommentCreate` (app/schemas/comment.py). -/
structure CreateData where
  content : String
  post_id : Nat
  parent_id : Option Nat
  guest_name : Option String
  guest_email : Option String
deriving Repr, DecidableEq

/-- Python truthiness of the optional `author_id` int. -/
def authorTruthy (author_id : Option Nat) : Bool :=
  match author_id with
  | some a => a ≠ 0
  | none => false

/-- `CommentService.create` (app/services/comment.py 28-50): builds a
`Comment` row without passing `is_approved`/`is_pinned`, so the model
defaults apply: `is_approved = True`, `is_pinned = False`, zero counters,
no vote rows.  Guest fields are kept only for anonymous authors. -/
def create (data : CreateData) (author_id : Option Nat) : CommentState :=
  { post_id := data.post_id
    parent_id := data.parent_id
    author_id := author_id
    content := data.content
    guest_name := if authorTruthy author_id then none else data.guest_name
    guest_email := if authorTruthy author_id then none else data.guest_email
    is_approved := true
    is_pinned := false
    likes_count := 0
    dislikes_count := 0
    votes := [] }

/-- `CommentService.approve`: `comment.is_approved = True`. -/
def approve (c : CommentState) : CommentState := { c with is_approved := true }

/-- `CommentService.pin`: `comment.is_pinned = True`. -/
def pin (c : CommentState) : CommentState := { c with is_pinned := true }

/-- `CommentService.unpin`: `comment.is_pinned = False`. -/
def unpin (c : CommentState) : CommentState := { c with is_pinned := false }

/-- `CommentService.update`: `comment.content = data.content`. -/
def update (c : CommentState) (content : String) : CommentState :=
  { c with content := content }

end CommentService

/-- A vote row always matches the identity that inserted it. -/
theorem voteMatches_self (uid : Option Nat) (ip : String) (v : Int) :
    voteMatches uid ip ⟨uid, ip, v⟩ = true := by
  cases uid with
  | none => simp [voteMatches]
  | some u => by_cases hu : u = 0 <;> simp [voteMatches, hu]

/-- C3: on a comment with zero counters and no vote rows, for any single voter
identity: `[vote(+1), vote(+1)]` leaves `likes_count = 1` (same-sign re-vote is
a no-op), `[vote(+1), vote(-1)]` leaves `likes_count = 0` and
`dislikes_count = 1` (flip moves the count), and `[vote(+1), vote(0)]` leaves
both counters at 0 (vote 0 deletes the row and decrements the old bucket). -/
theorem comment_vote_sequences (c : CommentState) (uid : Option Nat) (ip : String)
    (hl : c.likes_count = 0) (hd : c.dislikes_count = 0) (hv : c.votes = []) :
    ((CommentService.vote (CommentService.vote c 1 uid ip) 1 uid ip).likes_count = 1 ∧
      (CommentService.vote (CommentService.vote c 1 uid ip) 1 uid ip).dislikes_count = 0) ∧
    ((CommentService.vote (CommentService.vote c 1 uid ip) (-1) uid ip).likes_count = 0 ∧
      (CommentService.vote (CommentService.vote c 1 uid ip) (-1) uid ip).dislikes_count = 1) ∧
    ((CommentService.vote (CommentService.vote c 1 uid ip) 0 uid ip).likes_count = 0 ∧
      (CommentService.vote (CommentService.vote c 1 uid ip) 0 uid ip).dislikes_count = 0) := by
  have h1 : CommentService.vote c 1 uid ip =
      { c with
        votes := [⟨uid, ip, 1⟩],
        likes_count := c.likes_count + 1,
        dislikes_count := c.dislikes_count } := by
    simp [CommentService.vote, hv]
  rw [h1]
  refine ⟨?_, ?_, ?_⟩ <;>
    simp [CommentService.vote, List.find?_cons, voteMatches_self, hl, hd]

/-- Closed witness for the three voting sequences at a concrete comment and voter. -/
theorem comment_vote_sequences_witness :
    ((CommentService.vote (CommentService.vote
        (CommentService.create ⟨"c", 1, none, none, none⟩ (some 1)) 1 (some 2) "ip")
        1 (some 2) "ip").likes_count = 1 ∧
      (CommentService.vote (CommentService.vote
        (CommentService.create ⟨"c", 1, none, none, none⟩ (some 1)) 1 (some 2) "ip")
        1 (some 2) "ip").dislikes_count = 0) ∧
    ((CommentService.vote (CommentService.vote
        (CommentService.create ⟨"c", 1, none, none, none⟩ (some 1)) 1 (some 2) "ip")
        (-1) (some 2) "ip").likes_count = 0 ∧
      (CommentService.vote (CommentService.vote
        (CommentService.create ⟨"c", 1, none, none, none⟩ (some 1)) 1 (some 2) "ip")
        (-1) (some 2) "ip").dislikes_count = 1) ∧
    ((CommentService.vote (CommentService.vote
        (CommentService.create ⟨"c", 1, none, none, none⟩ (some 1)) 1 (some 2) "ip")
        0 (some 2) "ip").likes_count = 0 ∧
      (CommentService.vote (CommentService.vote
        (CommentService.create ⟨"c", 1, none, none, none⟩ (some 1)) 1 (some 2) "ip")
        0 (some 2) "ip").dislikes_count = 0) :=
  comment_vote_sequences (CommentService.create ⟨"c", 1, none, none, none⟩ (some 1))
    (some 2) "ip" rfl rfl rfl

/-- C8 counterexample: a comment created through `CommentService.create` is
already approved, because `Comment.is_approved` defaults to `True`
(app/models/comment.py line 50) and `create` does not override it; the
claimed initial Pending (not approved) state is false. -/
theorem comment_create_approved_counterexample :
    (CommentService.create ⟨"hello", 1, none, some "g", some "g@x.io"⟩ none).is_approved
      = true ∧ true ≠ false := ⟨rfl, by decide⟩

/-- C8 amended: every newly created comment starts Approved (the model default
for `is_approved` is `True` and `create` does not set it); content update,
pin, unpin and voting never change `is_approved`; the admin approve action
sets it to `True`. -/
theorem comment_approval_transitions :
    (∀ (d : CommentService.CreateData) (author : Option Nat),
      (CommentService.create d author).is_approved = true) ∧
    (∀ (c : CommentState) (s : String),
      (CommentService.update c s).is_approved = c.is_approved) ∧
    (∀ c : CommentState, (CommentService.pin c).is_approved = c.is_approved) ∧
    (∀ c : CommentState, (CommentService.unpin c).is_approved = c.is_approved) ∧
    (∀ (c : CommentState) (v : Int) (uid : Option Nat) (ip : String),
      (CommentService.vote c v uid ip).is_approved = c.is_approved) ∧
    (∀ c : CommentState, (CommentService.approve c).is_approved = true) := by
  refine ⟨fun _ _ => rfl, fun _ _ => rfl, fun _ => rfl, fun _ => rfl, ?_, fun _ => rfl⟩
  intro c v uid ip
  rcases hfind : c.votes.find? (voteMatches uid ip) with _ | row <;>
      simp only [CommentService.vote, hfind] <;> split <;> rfl

/-- Closed witness instancing the approval-transition facts. -/
theorem comment_approval_transitions_witness :
    (CommentService.create ⟨"w", 2, none, none, none⟩ (some 3)).is_approved = true ∧
    (CommentService.vote (CommentService.create ⟨"w", 2, none, none, none⟩ (some 3))
        1 (some 3) "ip").is_approved =
      (CommentService.create ⟨"w", 2, none, none, none⟩ (some 3)).is_approved :=
  ⟨comment_approval_transitions.1 ⟨"w", 2, none, none, none⟩ (some 3),
    comment_approval_transitions.2.2.2.2.1
      (CommentService.create ⟨"w", 2, none, none, none⟩ (some 3)) 1 (some 3) "ip"⟩

/-! ### Slug assignment (PostService.create 52-58, CategoryService.create 41-46;
the same probe loop appears verbatim in both services) -/

/-- The k-th probed slug: the slugified base itself, then `base-1`, `base-2`, … -/
def slugCand (base : String) : Nat → String
  | 0 => base
  | k + 1 => base ++ "-" ++ toString (k + 1)

/-- The collision loop
`slug = base_slug; counter = 1; while get_by_slug(slug): slug = f"{base_slug}-{counter}"; counter += 1`
over the set of already-taken slugs of the entity type.  `fuel` bounds the
probes; the Python loop needs at most `taken.length + 1` of them, and the
embedding returns `none` only when the fuel runs out. -/
def slugProbe (taken : List String) (base : String) : Nat → Nat → Option String
  | 0, _ => none
  | fuel + 1, k =>
      if slugCand base k ∈ taken then slugProbe taken base fuel (k + 1)
      else some (slugCand base k)

/-- Slug assignment for a newly created post or category. -/
def assignSlug (taken : List String) (base : String) : Option String :=
  slugProbe taken base (taken.length + 1) 0

/-- `n` successive creations with the same base name and no deletions: each
returned slug becomes taken before the next creation probes. -/
def createSlugs (taken : List String) (base : String) : Nat → Option (List String)
  | 0 => some []
  | n + 1 =>
      match assignSlug taken base with
      | none => none
      | some s =>
          match createSlugs (taken ++ [s]) base n with
          | none => none
          | some rest => some (s :: rest)

/-- What a successful probe returns: a candidate that is free, all earlier
candidates (from the starting index) being taken. -/
theorem slugProbe_spec (taken : List String) (base : String) :
    ∀ (fuel k : Nat) (s : String), slugProbe taken base fuel k = some s →
      s ∉ taken ∧ ∃ m, k ≤ m ∧ s = slugCand base m ∧
        ∀ j, k ≤ j → j < m → slugCand base j ∈ taken := by
  intro fuel
  induction fuel with
  | zero =>
    intro k s h
    simp [slugProbe] at h
  | succ fuel ih =>
    intro k s h
    by_cases hmem : slugCand base k ∈ taken
    · rw [slugProbe, if_pos hmem] at h
      obtain ⟨hnot, m, hkm, hs, hall⟩ := ih (k + 1) s h
      refine ⟨hnot, m, by omega, hs, fun j hj hjm => ?_⟩
      rcases Nat.eq_or_lt_of_le hj with heq | hlt
      · rw [← heq]; exact hmem
      · exact hall j hlt hjm
    · rw [slugProbe, if_neg hmem] at h
      obtain rfl : slugCand base k = s := by injection h
      exact ⟨hmem, k, le_refl k, rfl, fun j hj hjm => by omega⟩

/-- Each slug returned during a creation sequence is fresh and stays recorded. -/
theorem createSlugs_nodup (base : String) :
    ∀ (n : Nat) (taken slugs : List String), createSlugs taken base n = some slugs →
      slugs.Nodup ∧ ∀ s ∈ slugs, s ∉ taken := by
  intro n
  induction n with
  | zero =>
    intro taken slugs h
    simp only [createSlugs] at h
    obtain rfl : ([] : List String) = slugs := by injection h
    simp
  | succ n ih =>
    intro taken slugs h
    rcases ha : assignSlug taken base with _ | s
    · rw [createSlugs, ha] at h
      cases h
    · rw [createSlugs, ha] at h
      dsimp only at h
      rcases hr : createSlugs (taken ++ [s]) base n with _ | rest
      · rw [hr] at h
        cases h
      · rw [hr] at h
        obtain rfl : s :: rest = slugs := by injection h
        obtain ⟨hs_free, -⟩ := slugProbe_spec taken base _ 0 s ha
        obtain ⟨hnodup, hfresh⟩ := ih (taken ++ [s]) rest hr
        refine ⟨List.nodup_cons.mpr ⟨fun hmem => ?_, hnodup⟩, ?_⟩
        · exact hfresh s hmem (by simp)
        · intro x hx
          rcases List.mem_cons.mp hx with rfl | hx'
          · exact hs_free
          · intro hxt
            exact hfresh x hx' (by simp [hxt])

/-- C4: a successful slug assignment returns the base verbatim when the base
is free; otherwise it returns `base-N` for the smallest positive `N` whose
suffix is not already taken; and over any sequence of creations with the same
base and no deletions the returned slugs are pairwise distinct. -/
theorem slug_assignment_spec :
    (∀ (taken : List String) (base : String),
      base ∉ taken → assignSlug taken base = some base) ∧
    (∀ (taken : List String) (base s : String), assignSlug taken base = some s →
      s ∉ taken ∧
      (base ∈ taken → ∃ N, 0 < N ∧ s = slugCand base N ∧ slugCand base N ∉ taken ∧
        ∀ m, 0 < m → m < N → slugCand base m ∈ taken)) ∧
    (∀ (taken : List String) (base : String) (n : Nat) (slugs : List String),
      createSlugs taken base n = some slugs → slugs.Nodup) := by
  refine ⟨?_, ?_, ?_⟩
  · intro taken base hfree
    rw [assignSlug, slugProbe, if_neg (by simpa [slugCand] using hfree)]
    rfl
  · intro taken base s h
    obtain ⟨hfree, m, -, hs, hall⟩ := slugProbe_spec taken base _ 0 s h
    refine ⟨hfree, fun hbase => ?_⟩
    have hm : m ≠ 0 := by
      intro h0
      rw [h0] at hs
      exact hfree (hs ▸ hbase)
    exact ⟨m, Nat.pos_of_ne_zero hm, hs, hs ▸ hfree,
      fun j hj hjm => hall j (Nat.zero_le j) hjm⟩
  · intro taken base n slugs h
    exact (createSlugs_nodup base n taken slugs h).1

/-- Closed witness: with `post` and `post-1` taken, creation returns `post-2`
(the smallest free suffix), and three successive creations from an empty
table return pairwise distinct slugs. -/
theorem slug_assignment_spec_witness :
    (assignSlug [] "post" = some "post") ∧
    (assignSlug ["post", "post-1"] "post" = some "post-2") ∧
    ("post-2" ∉ (["post", "post-1"] : List String)) ∧
    (createSlugs [] "post" 3 = some ["post", "post-1", "post-2"]) ∧
    (["post", "post-1", "post-2"] : List String).Nodup := by
  refine ⟨slug_assignment_spec.1 [] "post" (by decide), by decide, ?_, by decide, ?_⟩
  · exact (slug_assignment_spec.2.1 ["post", "post-1"] "post" "post-2" (by decide)).1
  · exact slug_assignment_spec.2.2 [] "post" 3 ["post", "post-1", "post-2"] (by decide)

/-! ### Paginated comment listing (CommentService.get_by_post, app/services/comment.py 79-114) -/

/-- A `comments` row as the listing query sees it. -/
structure CommentRow where
  id : Nat
  post_id : Nat
  parent_id : Option Nat
  is_approved : Bool
  is_pinned : Bool
  created_at : Nat
deriving Repr, DecidableEq

/-- SQL boolean ordering rank: FALSE sorts below TRUE. -/
def boolRank (b : Bool) : Nat := if b then 1 else 0

/-- `ORDER BY Comment.is_pinned DESC, Comment.created_at DESC` as a total
preorder on rows: pinned rows first, then newer rows first. -/
def commentOrder (a b : CommentRow) : Prop :=
  boolRank b.is_pinned < boolRank a.is_pinned ∨
    (boolRank a.is_pinned = boolRank b.is_pinned ∧ b.created_at ≤ a.created_at)

instance : DecidableRel commentOrder := fun a b => by
  unfold commentOrder
  infer_instance

instance : IsTotal CommentRow commentOrder :=
  ⟨by intro a b; unfold commentOrder; omega⟩

instance : IsTrans CommentRow commentOrder :=
  ⟨by intro a b c; unfold commentOrder; omega⟩

/-- The WHERE clause of both the page query and the count query:
`Comment.post_id == post_id, Comment.parent_id == None`, plus
`Comment.is_approved == True` when `approved_only`. -/
def topLevelFilter (post_id : Nat) (approved_only : Bool) (c : CommentRow) : Bool :=
  c.post_id == post_id && c.parent_id == none && (!approved_only || c.is_approved)

/-- `CommentService.get_by_post`: filters top-level comments of the post,
counts them for `total`, orders by pinned-then-newest, applies
`offset = (page - 1) * per_page` and `limit = per_page`, and attaches to each
returned comment its full reply list (`selectinload(Comment.replies)`: every
row whose `parent_id` is the comment's id, with no filter or page bound). -/
def get_by_post (db : List CommentRow) (post_id page per_page : Nat)
    (approved_only : Bool) : List (CommentRow × List CommentRow) × Nat :=
  ((((List.insertionSort commentOrder
        (db.filter (topLevelFilter post_id approved_only))).drop
          ((page - 1) * per_page)).take per_page).map
      fun c => (c, db.filter fun r => r.parent_id == some c.id),
    (db.filter (topLevelFilter post_id approved_only)).length)

/-- C5: every listed item is a top-level comment of the post matching the
approval filter and carries its full unpaginated reply list; the page is
ordered pinned-first then newest-first; at most `per_page` items are
returned; and `total` counts exactly the top-level comments matching the
filter. -/
theorem get_by_post_paginates_top_level (db : List CommentRow)
    (post_id page per_page : Nat) (approved_only : Bool) :
    (∀ it ∈ (get_by_post db post_id page per_page approved_only).1,
      it.1.post_id = post_id ∧ it.1.parent_id = none ∧
      (approved_only = true → it.1.is_approved = true) ∧
      it.2 = db.filter fun r => r.parent_id == some it.1.id) ∧
    List.Sorted commentOrder
      ((get_by_post db post_id page per_page approved_only).1.map Prod.fst) ∧
    (get_by_post db post_id page per_page approved_only).1.length ≤ per_page ∧
    (get_by_post db post_id page per_page approved_only).2 =
      (db.filter (topLevelFilter post_id approved_only)).length := by
  refine ⟨?_, ?_, ?_, rfl⟩
  · intro it hit
    simp only [get_by_post, List.mem_map] at hit
    obtain ⟨c, hc, rfl⟩ := hit
    have hc' : c ∈ List.insertionSort commentOrder
        (db.filter (topLevelFilter post_id approved_only)) :=
      List.mem_of_mem_drop (List.mem_of_mem_take hc)
    rw [List.mem_insertionSort] at hc'
    have := List.of_mem_filter hc'
    simp only [topLevelFilter, Bool.and_eq_true, beq_iff_eq, Bool.or_eq_true,
      Bool.not_eq_true'] at this
    refine ⟨this.1.1, this.1.2, fun ha => ?_, rfl⟩
    rcases this.2 with h | h
    · rw [ha] at h; cases h
    · exact h
  · have hsorted : List.Sorted commentOrder
        (List.insertionSort commentOrder
          (db.filter (topLevelFilter post_id approved_only))) :=
      List.sorted_insertionSort commentOrder _
    have hsub : List.Sublist
        (((List.insertionSort commentOrder
          (db.filter (topLevelFilter post_id approved_only))).drop
            ((page - 1) * per_page)).take per_page)
        (List.insertionSort commentOrder
          (db.filter (topLevelFilter post_id approved_only))) :=
      (List.take_sublist _ _).trans (List.drop_sublist _ _)
    have hps : List.Sorted commentOrder
        (((List.insertionSort commentOrder
          (db.filter (topLevelFilter post_id approved_only))).drop
            ((page - 1) * per_page)).take per_page) := hsorted.sublist hsub
    simpa [get_by_post, List.map_map, Function.comp_def] using hps
  · simp only [get_by_post, List.length_map]
    exact List.length_take_le _ _

/-- Closed witness: a post with one pinned and one newer unpinned approved
comment, one unapproved comment and one reply; page 1 lists the pinned
comment first, the reply list rides along unpaginated, and `total = 2`. -/
theorem get_by_post_paginates_top_level_witness :
    ((get_by_post
        [⟨1, 1, none, true, false, 10⟩, ⟨2, 1, none, true, true, 5⟩,
         ⟨3, 1, none, false, false, 20⟩, ⟨4, 1, some 1, true, false, 30⟩]
        1 1 20 true).1.map fun it => it.1.id) = [2, 1] ∧
    List.Sorted commentOrder
      ((get_by_post
        [⟨1, 1, none, true, false, 10⟩, ⟨2, 1, none, true, true, 5⟩,
         ⟨3, 1, none, false, false, 20⟩, ⟨4, 1, some 1, true, false, 30⟩]
        1 1 20 true).1.map Prod.fst) ∧
    (get_by_post
        [⟨1, 1, none, true, false, 10⟩, ⟨2, 1, none, true, true, 5⟩,
         ⟨3, 1, none, false, false, 20⟩, ⟨4, 1, some 1, true, false, 30⟩]
        1 1 20 true).2 = 2 := by
  refine ⟨by decide, ?_, ?_⟩
  · exact (get_by_post_paginates_top_level
      [⟨1, 1, none, true, false, 10⟩, ⟨2, 1, none, true, true, 5⟩,
       ⟨3, 1, none, false, false, 20⟩, ⟨4, 1, some 1, true, false, 30⟩]
      1 1 20 true).2.1
  · rw [(get_by_post_paginates_top_level
      [⟨1, 1, none, true, false, 10⟩, ⟨2, 1, none, true, true, 5⟩,
       ⟨3, 1, none, false, false, 20⟩, ⟨4, 1, some 1, true, false, 30⟩]
      1 1 20 true).2.2.2]
    decide

/-! ### Categories (CategoryService, app/services/category.py;
API endpoints, app/api/v1/categories.py; model, app/models/category.py) -/

/-- A `categories` row (columns the claims touch). -/
structure CategoryRow where
  id : Nat
  name : String
  parent_id : Option Nat
  position : Int
  is_active : Bool
  posts_count : Int
deriving Repr, DecidableEq

/-- `ORDER BY Category.position, Category.name` (both ascending). -/
def categoryOrder (a b : CategoryRow) : Prop :=
  a.position < b.position ∨ (a.position = b.position ∧ a.name ≤ b.name)

instance : DecidableRel categoryOrder := fun a b => by
  unfold categoryOrder
  infer_instance

instance : IsTotal CategoryRow categoryOrder := by
  refine ⟨fun a b => ?_⟩
  unfold categoryOrder
  rcases lt_trichotomy a.position b.position with h | h | h
  · exact Or.inl (Or.inl h)
  · rcases le_total a.name b.name with hn | hn
    · exact Or.inl (Or.inr ⟨h, hn⟩)
    · exact Or.inr (Or.inr ⟨h.symm, hn⟩)
  · exact Or.inr (Or.inl h)

instance : IsTrans CategoryRow categoryOrder := by
  refine ⟨fun a b c hab hbc => ?_⟩
  unfold categoryOrder at hab hbc ⊢
  rcases hab with h | ⟨he, hn⟩
  · rcases hbc with h' | ⟨he', _⟩
    · exact Or.inl (h.trans h')
    · exact Or.inl (he' ▸ h)
  · rcases hbc with h' | ⟨he', hn'⟩
    · exact Or.inl (he ▸ h')
    · exact Or.inr ⟨he.trans he', hn.trans hn'⟩

/-- `CategoryService.get_tree` (app/services/category.py 110-124): selects
root rows (`parent_id == None`), restricted to `is_active == True` when
`active_only`, ordered by `position, name`; `selectinload(Category.children)`
attaches to each root every row whose `parent_id` is the root's id.  The
`children` relationship (app/models/category.py line 31) declares no
`order_by` and no `is_active` filter, so children arrive unfiltered and in
table order. -/
def get_tree (db : List CategoryRow) (active_only : Bool) :
    List (CategoryRow × List CategoryRow) :=
  (List.insertionSort categoryOrder
      (db.filter fun c => c.parent_id == none && (!active_only || c.is_active))).map
    fun root => (root, db.filter fun c => c.parent_id == some root.id)

/-- C6 counterexample: an active root with an inactive child.
`get_tree(active_only := true)` returns the inactive child inside the root's
children list, so the claim that no inactive category is ever returned as a
child is false. -/
theorem get_tree_inactive_child_counterexample :
    get_tree [⟨1, "a", none, 0, true, 0⟩, ⟨2, "b", some 1, 0, false, 0⟩] true =
      [(⟨1, "a", none, 0, true, 0⟩, [⟨2, "b", some 1, 0, false, 0⟩])] ∧
    (⟨2, "b", some 1, 0, false, 0⟩ : CategoryRow).is_active = false := by
  exact ⟨by decide, rfl⟩

/-- C6 amended: with `active_only = true`, no inactive category is returned
as a root, and the roots are ordered by position then name; each root's
children list is the full unfiltered, unordered (table-order) list of its
children — inactive children included. -/
theorem get_tree_active_roots_sorted (db : List CategoryRow) :
    (∀ p ∈ get_tree db true, p.1.is_active = true ∧ p.1.parent_id = none) ∧
    List.Sorted categoryOrder ((get_tree db true).map Prod.fst) ∧
    (∀ p ∈ get_tree db true, p.2 = db.filter fun c => c.parent_id == some p.1.id) := by
  refine ⟨?_, ?_, ?_⟩
  · intro p hp
    simp only [get_tree, List.mem_map] at hp
    obtain ⟨root, hroot, rfl⟩ := hp
    rw [List.mem_insertionSort] at hroot
    have := List.of_mem_filter hroot
    simp only [Bool.and_eq_true, beq_iff_eq, Bool.or_eq_true, Bool.not_eq_true'] at this
    refine ⟨?_, this.1⟩
    rcases this.2 with h | h
    · cases h
    · exact h
  · have hsorted := List.sorted_insertionSort categoryOrder
      (db.filter fun c => c.parent_id == none && (!true || c.is_active))
    simpa [get_tree, List.map_map, Function.comp_def] using hsorted
  · intro p hp
    simp only [get_tree, List.mem_map] at hp
    obtain ⟨root, hroot, rfl⟩ := hp
    rfl

/-- Closed witness: two active roots sorted by position with an inactive
child attached to the first. -/
theorem get_tree_active_roots_sorted_witness :
    (∀ p ∈ get_tree
        [⟨1, "a", none, 2, true, 0⟩, ⟨2, "b", some 1, 0, false, 0⟩,
         ⟨3, "c", none, 1, true, 0⟩] true,
      p.1.is_active = true ∧ p.1.parent_id = none) ∧
    ((get_tree
        [⟨1, "a", none, 2, true, 0⟩, ⟨2, "b", some 1, 0, false, 0⟩,
         ⟨3, "c", none, 1, true, 0⟩] true).map fun p => p.1.id) = [3, 1] :=
  ⟨(get_tree_active_roots_sorted
      [⟨1, "a", none, 2, true, 0⟩, ⟨2, "b", some 1, 0, false, 0⟩,
       ⟨3, "c", none, 1, true, 0⟩]).1,
    by decide⟩

/-- Outcome of an API endpoint call: a successful value or an HTTP error
status raised through `HTTPException`. -/
inductive ApiResult (α : Type) where
  | ok (val : α)
  | error (status : Nat)
deriving Repr, DecidableEq

/-- The `parent_id` write of `CategoryService.update` (app/services/category.py
86-87): `setattr(category, "parent_id", value)` on the addressed row. -/
def setParent (db : List CategoryRow) (cid : Nat) (p : Option Nat) :
    List CategoryRow :=
  db.map fun c => if c.id = cid then { c with parent_id := p } else c

/-- The guard `if data.parent_id and data.parent_id == category_id` of
`update_category` (app/api/v1/categories.py 145): fires only when the new
parent id is truthy (a nonzero int) and equals the category's own id. -/
def selfParentCheck (cid : Nat) (p : Option Nat) : Bool :=
  match p with
  | some q => (q != 0) && (q == cid)
  | none => false

/-- `update_category` (app/api/v1/categories.py 125-152), restricted to an
update that provides `parent_id`: 404 when the category does not exist, 400
("Category cannot be its own parent") when the direct self-parent guard
fires, otherwise the new `parent_id` is written.  There is no other cycle
check anywhere in the service or endpoint. -/
def update_category_parent (db : List CategoryRow) (cid : Nat) (p : Option Nat) :
    ApiResult (List CategoryRow) :=
  match db.find? (fun c => c.id == cid) with
  | none => .error 404
  | some _ =>
      if selfParentCheck cid p then .error 400
      else .ok (setParent db cid p)

/-- The stored parent pointer of a category. -/
def parentOf (db : List CategoryRow) (cid : Nat) : Option Nat :=
  (db.find? fun c => c.id == cid).bind fun c => c.parent_id

/-- C7 counterexample: with categories 1 (root) and 2 (child of 1), updating
category 1's parent to 2 passes the self-parent guard, is applied without
any error, and leaves the table with the parent cycle 1 → 2 → 1. -/
theorem category_cycle_counterexample :
    update_category_parent
        [⟨1, "a", none, 0, true, 0⟩, ⟨2, "b", some 1, 0, true, 0⟩] 1 (some 2) =
      .ok [⟨1, "a", some 2, 0, true, 0⟩, ⟨2, "b", some 1, 0, true, 0⟩] ∧
    parentOf [⟨1, "a", some 2, 0, true, 0⟩, ⟨2, "b", some 1, 0, true, 0⟩] 1 =
      some 2 ∧
    parentOf [⟨1, "a", some 2, 0, true, 0⟩, ⟨2, "b", some 1, 0, true, 0⟩] 2 =
      some 1 := by
  refine ⟨by decide, by decide, by decide⟩

/-- C7 amended: only the direct self-parent assignment (`parent_id` truthy and
equal to the category's own id) is rejected, with a 400 error and no write;
any other value — including one that makes the category its own ancestor at
depth two or more — is accepted and written verbatim. -/
theorem update_category_self_parent_guard (db : List CategoryRow) (cid q : Nat)
    (hfound : (db.find? fun c => c.id == cid).isSome = true) :
    (q = cid → q ≠ 0 → update_category_parent db cid (some q) = .error 400) ∧
    (q ≠ cid →
      update_category_parent db cid (some q) = .ok (setParent db cid (some q))) := by
  rcases hfind : db.find? fun c => c.id == cid with _ | cat
  · rw [hfind] at hfound
    cases hfound
  · constructor
    · intro hq hq0
      rw [update_category_parent, hfind]
      have : selfParentCheck cid (some q) = true := by
        subst hq
        simp [selfParentCheck, hq0]
      rw [if_pos this]
    · intro hq
      rw [update_category_parent, hfind]
      have : selfParentCheck cid (some q) = false := by
        simp [selfParentCheck, hq]
      rw [if_neg (by simp [this])]

/-- Closed witness: category 1 cannot be made its own parent (400), but the
deep-cycle write of the counterexample is accepted. -/
theorem update_category_self_parent_guard_witness :
    update_category_parent [⟨1, "a", none, 0, true, 0⟩] 1 (some 1) = .error 400 ∧
    update_category_parent
        [⟨1, "a", none, 0, true, 0⟩, ⟨2, "b", some 1, 0, true, 0⟩] 1 (some 2) =
      .ok (setParent
        [⟨1, "a", none, 0, true, 0⟩, ⟨2, "b", some 1, 0, true, 0⟩] 1 (some 2)) :=
  ⟨(update_category_self_parent_guard [⟨1, "a", none, 0, true, 0⟩] 1 1
      (by decide)).1 rfl (by decide),
    (update_category_self_parent_guard
      [⟨1, "a", none, 0, true, 0⟩, ⟨2, "b", some 1, 0, true, 0⟩] 1 2
      (by decide)).2 (by decide)⟩

/-- `CategoryService.increment_posts_count` (app/services/category.py 136-139). -/
def increment_posts_count (c : CategoryRow) : CategoryRow :=
  { c with posts_count := c.posts_count + 1 }

/-- `CategoryService.decrement_posts_count` (app/services/category.py 141-145):
decrements only when the count is positive (clamp at 0, no error). -/
def decrement_posts_count (c : CategoryRow) : CategoryRow :=
  if c.posts_count > 0 then { c with posts_count := c.posts_count - 1 } else c

/-- The category side of the persisted state `PostService._set_categories`
touches: the `categories` table and the `post_categories` association rows. -/
structure CmsState where
  categories : List CategoryRow
  post_categories : List (Nat × Nat)
deriving Repr, DecidableEq

/-- `PostService._set_categories` (app/services/post.py 271-277), called by
post create/update: loads the categories whose ids were supplied and assigns
`post.categories = categories`, i.e. replaces the post's association rows.
It performs no write to any category row — in particular it never calls
`increment_posts_count`/`decrement_posts_count` (whose only caller in the
repository is the per-user counter in app/api/v1/posts.py line 231, on the
`User`, not on any `Category`). -/
def set_categories (st : CmsState) (post_id : Nat) (category_ids : List Nat) :
    CmsState :=
  { st with
    post_categories :=
      (st.post_categories.filter fun a => a.1 != post_id) ++
        ((st.categories.filter fun c => c.id ∈ category_ids).map
          fun c => (post_id, c.id)) }

/-- C9: the counter helpers behave as claimed — increment adds one and
decrement clamps at 0 — but associating a post with a category through
`_set_categories` leaves every category row, hence every `posts_count`,
unchanged; at the failing input (a fresh post created with category 1 whose
`posts_count` is 0) the count stays 0 where the claim requires 1. -/
theorem posts_count_not_maintained :
    (∀ (st : CmsState) (pid : Nat) (ids : List Nat),
      (set_categories st pid ids).categories = st.categories) ∧
    (∀ c : CategoryRow, (increment_posts_count c).posts_count = c.posts_count + 1) ∧
    (∀ c : CategoryRow, 0 < c.posts_count →
      (decrement_posts_count c).posts_count = c.posts_count - 1) ∧
    (∀ c : CategoryRow, c.posts_count = 0 →
      (decrement_posts_count c).posts_count = 0) ∧
    ((set_categories ⟨[⟨1, "news", none, 0, true, 0⟩], []⟩ 7 [1]).categories.map
        fun c => c.posts_count) = [0] := by
  refine ⟨fun _ _ _ => rfl, fun _ => rfl, ?_, ?_, by decide⟩
  · intro c hc
    rw [decrement_posts_count, if_pos hc]
  · intro c hc
    rw [decrement_posts_count, if_neg (by omega)]
    exact hc

/-- Closed witness: decrement at 3 gives 2, decrement at 0 stays 0. -/
theorem posts_count_not_maintained_witness :
    (decrement_posts_count ⟨1, "n", none, 0, true, 3⟩).posts_count = 3 - 1 ∧
    (decrement_posts_count ⟨1, "n", none, 0, true, 0⟩).posts_count = 0 :=
  ⟨posts_count_not_maintained.2.2.1 ⟨1, "n", none, 0, true, 3⟩ (by decide),
    posts_count_not_maintained.2.2.2.1 ⟨1, "n", none, 0, true, 0⟩ rfl⟩

/-- `delete_category` (app/api/v1/categories.py 155-180): 404 when missing,
400 ("Cannot delete category with N posts") when `posts_count > 0`, else the
row is deleted. -/
def delete_category (db : List CategoryRow) (cid : Nat) :
    ApiResult (List CategoryRow) :=
  match db.find? (fun c => c.id == cid) with
  | none => .error 404
  | some cat =>
      if cat.posts_count > 0 then .error 400
      else .ok (db.filter fun c => c.id != cid)

/-- C10: deleting a category whose `posts_count` is positive is rejected with
an error (the state is untouched, since an error commits no write); a
category with `posts_count = 0` is deleted, removing exactly its row. -/
theorem delete_category_guard (db : List CategoryRow) (cid : Nat)
    (cat : CategoryRow) (hfind : db.find? (fun c => c.id == cid) = some cat) :
    (0 < cat.posts_count → delete_category db cid = .error 400) ∧
    (cat.posts_count = 0 →
      delete_category db cid = .ok (db.filter fun c => c.id != cid)) := by
  constructor
  · intro hpos
    rw [delete_category, hfind]
    dsimp only
    rw [if_pos hpos]
  · intro hzero
    rw [delete_category, hfind]
    dsimp only
    rw [if_neg (by omega)]

/-- Closed witness: a category with 2 posts is not deletable; one with 0
posts is removed from the table. -/
theorem delete_category_guard_witness :
    delete_category [⟨1, "a", none, 0, true, 2⟩] 1 = .error 400 ∧
    delete_category [⟨1, "a", none, 0, true, 0⟩, ⟨2, "b", none, 0, true, 0⟩] 1 =
      .ok [⟨2, "b", none, 0, true, 0⟩] := by
  constructor
  · exact (delete_category_guard [⟨1, "a", none, 0, true, 2⟩] 1
      ⟨1, "a", none, 0, true, 2⟩ (by decide)).1 (by decide)
  · rw [(delete_category_guard
      [⟨1, "a", none, 0, true, 0⟩, ⟨2, "b", none, 0, true, 0⟩] 1
      ⟨1, "a", none, 0, true, 0⟩ (by decide)).2 rfl]
    decide
